import Mathlib

/-!
Shallow embedding of `src/tetris.c`, a fixed-capacity circular FIFO queue of
game pieces, and proofs of its specification's claims.

Modelling conventions:
- C `int` fields (`frente`, `tras`, `tamanho`, `id`, the global counter
  `proximo_id_peca`) are modelled as `Int`; overflow plays no role at the
  values the program reaches.
- The C `%` operator truncates toward zero, which is `Int.tmod` in Lean
  (for the nonnegative dividends that actually occur it agrees with `%`,
  i.e. `Int.emod`).
- The backing array `Peca elementos[5]` is modelled as a total map
  `Int → Peca`; the code only ever reads and writes indices `0..4`.
- `rand()` is abstracted by an arbitrary stream `randOf : Int → Int`
  giving the value of the draw made while the id counter is at a given
  value (each `gerarPeca` call makes exactly one `rand()` call and bumps
  the counter by exactly one, so the counter indexes the draws).
- `printf` output is irrelevant to the claims and is dropped; the piece a
  call prints is kept as an explicit `Option Peca` observable, and the C
  `return 0/1` status is kept as an `Int` field.
-/

namespace Tetris

/-- `#define CAPACIDADE_FILA 5` -/
def CAPACIDADE_FILA : Int := 5

/-- `typedef struct { char tipo; int id; } Peca;` -/
structure Peca where
  tipo : Char
  id : Int
deriving DecidableEq

/-- `typedef struct { Peca elementos[CAPACIDADE_FILA]; int frente; int tras; int tamanho; } FilaPecas;`
The array is a total map from `Int`; only indices `0..4` are ever used. -/
structure FilaPecas where
  elementos : Int → Peca
  frente : Int
  tras : Int
  tamanho : Int

/-- `void inicializarFila(FilaPecas* fila)`: `frente = 0; tras = -1; tamanho = 0;`
(the array contents are left as they were). -/
def inicializarFila (fila : FilaPecas) : FilaPecas :=
  { fila with frente := 0, tras := -1, tamanho := 0 }

/-- `char tipos[] = {'I', 'O', 'T', 'L'};` -/
def tipos : List Char := ['I', 'O', 'T', 'L']

/-- `Peca gerarPeca()`: picks `tipos[rand() % num_tipos]` and assigns
`id = proximo_id_peca++`.  The global counter is threaded explicitly: the
argument is its value before the call, the second component of the result
its value after. -/
def gerarPeca (randOf : Int → Int) (proximo_id_peca : Int) : Peca × Int :=
  let num_tipos : Int := tipos.length
  let indice_aleatorio : Int := (randOf proximo_id_peca).tmod num_tipos
  ({ tipo := tipos.getD indice_aleatorio.toNat 'I', id := proximo_id_peca },
   proximo_id_peca + 1)

/-- The loop body of `preencherFilaInicial`, iterated a fixed number of
times: `fila->tras = (fila->tras + 1) % CAPACIDADE_FILA;`
`fila->elementos[fila->tras] = gerarPeca();` `fila->tamanho++;`. -/
def preencherLoop (randOf : Int → Int) : ℕ → FilaPecas → Int → FilaPecas × Int
  | 0, fila, cnt => (fila, cnt)
  | Nat.succ i, fila, cnt =>
    let tras' := (fila.tras + 1).tmod CAPACIDADE_FILA
    let gen := gerarPeca randOf cnt
    preencherLoop randOf i
      { elementos := fun j => if j = tras' then gen.1 else fila.elementos j,
        frente := fila.frente,
        tras := tras',
        tamanho := fila.tamanho + 1 }
      gen.2

/-- `void preencherFilaInicial(FilaPecas* fila, int num_pecas)`: clamps
`num_pecas` to the capacity, then runs the enqueue loop body that many
times (a C `for` loop with an `int` bound runs `max(bound, 0)` times,
hence `Int.toNat`). -/
def preencherFilaInicial (randOf : Int → Int) (fila : FilaPecas)
    (cnt num_pecas : Int) : FilaPecas × Int :=
  let n := if num_pecas > CAPACIDADE_FILA then CAPACIDADE_FILA else num_pecas
  preencherLoop randOf n.toNat fila cnt

/-- Result of `int inserirPeca(FilaPecas* fila)`: the queue after the call,
the id counter after the call, the C return status, and the piece the call
printed as inserted (if any). -/
structure InsertResult where
  fila : FilaPecas
  cnt : Int
  ret : Int
  inserted : Option Peca

/-- `int inserirPeca(FilaPecas* fila)`: fails with status 0 on
`tamanho == CAPACIDADE_FILA`, otherwise advances `tras` circularly, stores
a freshly generated piece there, increments `tamanho` and returns 1. -/
def inserirPeca (randOf : Int → Int) (fila : FilaPecas) (cnt : Int) : InsertResult :=
  if fila.tamanho = CAPACIDADE_FILA then
    { fila := fila, cnt := cnt, ret := 0, inserted := none }
  else
    let tras' := (fila.tras + 1).tmod CAPACIDADE_FILA
    let gen := gerarPeca randOf cnt
    { fila := { elementos := fun j => if j = tras' then gen.1 else fila.elementos j,
                frente := fila.frente,
                tras := tras',
                tamanho := fila.tamanho + 1 },
      cnt := gen.2,
      ret := 1,
      inserted := some gen.1 }

/-- Result of `int jogarPeca(FilaPecas* fila)`: the queue after the call,
the C return status, and the piece the call printed as removed (if any). -/
structure PlayResult where
  fila : FilaPecas
  ret : Int
  removida : Option Peca

/-- `int jogarPeca(FilaPecas* fila)`: on `tamanho == 0` resets `tras` to
`-1` and returns 0; otherwise reads the piece at `frente`, advances
`frente` circularly, decrements `tamanho` and returns 1. -/
def jogarPeca (fila : FilaPecas) : PlayResult :=
  if fila.tamanho = 0 then
    { fila := { fila with tras := -1 }, ret := 0, removida := none }
  else
    let peca_removida := fila.elementos fila.frente
    { fila := { fila with
                frente := (fila.frente + 1).tmod CAPACIDADE_FILA,
                tamanho := fila.tamanho - 1 },
      ret := 1,
      removida := some peca_removida }

/-- The `while (count < fila->tamanho)` loop of `exibirFila`: reads
`fila->elementos[i]`, then `i = (i + 1) % CAPACIDADE_FILA`.  The first
argument is the remaining number of iterations. -/
def exibirLoop (elementos : Int → Peca) : ℕ → Int → List Peca
  | 0, _ => []
  | Nat.succ k, i => elementos i :: exibirLoop elementos k ((i + 1).tmod CAPACIDADE_FILA)

/-- `void exibirFila(const FilaPecas* fila)`: the sequence of pieces the
function prints, oldest first.  It takes the queue by `const` pointer and
writes nothing to it, so in the embedding it returns only the list. -/
def exibirFila (fila : FilaPecas) : List Peca :=
  if fila.tamanho = 0 then []
  else exibirLoop fila.elementos fila.tamanho.toNat fila.frente

/-- `n` consecutive `inserirPeca` calls: final queue, final counter, the
pieces reported inserted (in order), and the list of return statuses. -/
def insertN (randOf : Int → Int) : ℕ → FilaPecas → Int → FilaPecas × Int × List Peca × List Int
  | 0, fila, cnt => (fila, cnt, [], [])
  | Nat.succ n, fila, cnt =>
    let r := inserirPeca randOf fila cnt
    let rest := insertN randOf n r.fila r.cnt
    (rest.1, rest.2.1, r.inserted.toList ++ rest.2.2.1, r.ret :: rest.2.2.2)

/-- `n` consecutive `jogarPeca` calls: final queue, the pieces reported
removed (in order), and the list of return statuses. -/
def playN : ℕ → FilaPecas → FilaPecas × List Peca × List Int
  | 0, fila => (fila, [], [])
  | Nat.succ n, fila =>
    let r := jogarPeca fila
    let rest := playN n r.fila
    (rest.1, r.removida.toList ++ rest.2.1, r.ret :: rest.2.2)

/-- A menu action of the interactive loop: option 1 (`jogarPeca`) or
option 2 (`inserirPeca`). -/
inductive Acao
  | jogar
  | inserir

/-- Run a sequence of menu actions, collecting every piece produced by
`gerarPeca` along the way (pieces are generated only by successful
inserts; `jogarPeca` never touches the id counter). -/
def runOps (randOf : Int → Int) : List Acao → FilaPecas → Int → (FilaPecas × Int) × List Peca
  | [], fila, cnt => ((fila, cnt), [])
  | Acao.jogar :: ops, fila, cnt =>
    let r := jogarPeca fila
    runOps randOf ops r.fila cnt
  | Acao.inserir :: ops, fila, cnt =>
    let r := inserirPeca randOf fila cnt
    let rest := runOps randOf ops r.fila r.cnt
    (rest.1, r.inserted.toList ++ rest.2)

/-! ### Arithmetic helpers for the truncating C modulus -/

lemma capacidade_eq : CAPACIDADE_FILA = 5 := rfl

lemma tmod_five_eq_self {a : Int} (h0 : 0 ≤ a) (h5 : a < 5) : a.tmod 5 = a := by
  rw [Int.tmod_eq_emod h0 (by norm_num)]
  exact Int.emod_eq_of_lt h0 h5

lemma tmod_five_nonneg {a : Int} (h0 : 0 ≤ a) : 0 ≤ a.tmod 5 :=
  Int.tmod_nonneg _ h0

lemma tmod_five_lt (a : Int) : a.tmod 5 < 5 :=
  Int.tmod_lt_of_pos _ (by norm_num)

lemma tmod_five_step (i : Int) (t : ℕ) (h0 : 0 ≤ i) :
    ((i + 1).tmod 5 + (t : Int)).tmod 5 = (i + ((t : Int) + 1)).tmod 5 := by
  have h1 : (0 : Int) ≤ i + 1 := by omega
  have h2 : (0 : Int) ≤ (i + 1).tmod 5 := tmod_five_nonneg h1
  rw [Int.tmod_eq_emod h1 (by norm_num)] at h2 ⊢
  rw [Int.tmod_eq_emod (by omega) (by norm_num),
    Int.tmod_eq_emod (by omega) (by norm_num)]
  omega

/-! ### The `exibirFila` loop visits `frente, frente+1, …` modulo the capacity -/

lemma exibirLoop_length (e : Int → Peca) : ∀ (k : ℕ) (i : Int),
    (exibirLoop e k i).length = k := by
  intro k
  induction k with
  | zero => intro i; rfl
  | succ k ih => intro i; simp [exibirLoop, ih]

lemma exibirLoop_eq_map (e : Int → Peca) : ∀ (k : ℕ) (i : Int), 0 ≤ i → i < 5 →
    exibirLoop e k i = (List.range k).map (fun t : ℕ => e ((i + (t : Int)).tmod 5)) := by
  intro k
  induction k with
  | zero => intro i _ _; rfl
  | succ k ih =>
    intro i h0 h5
    rw [exibirLoop, List.range_succ_eq_map, List.map_cons, List.map_map]
    have hhead : e i = e ((i + ((0 : ℕ) : Int)).tmod 5) := by
      rw [show i + ((0 : ℕ) : Int) = i by push_cast; ring, tmod_five_eq_self h0 h5]
    rw [← hhead]
    have htail : exibirLoop e k ((i + 1).tmod CAPACIDADE_FILA) =
        (List.range k).map ((fun t : ℕ => e ((i + (t : Int)).tmod 5)) ∘ Nat.succ) := by
      rw [capacidade_eq,
        ih ((i + 1).tmod 5) (tmod_five_nonneg (by omega)) (tmod_five_lt _)]
      refine List.map_congr_left ?_
      intro t _
      simp only [Function.comp]
      rw [tmod_five_step i t h0]
      norm_num
    rw [htail]

/-! ### The `preencherFilaInicial` loop: unconditional size and counter growth -/

lemma preencherLoop_growth (randOf : Int → Int) : ∀ (k : ℕ) (fila : FilaPecas) (c : Int),
    (preencherLoop randOf k fila c).1.tamanho = fila.tamanho + k ∧
    (preencherLoop randOf k fila c).2 = c + k := by
  intro k
  induction k with
  | zero => intro fila c; constructor <;> simp [preencherLoop]
  | succ k ih =>
    intro fila c
    rw [preencherLoop]
    refine ⟨?_, ?_⟩
    · rw [(ih _ _).1]; push_cast; ring
    · rw [(ih _ _).2]
      show c + 1 + (k : Int) = c + ((k : ℕ) + 1 : ℕ)
      push_cast; ring

/-- As long as the queue never becomes full, the `preencherFilaInicial` loop
body is exactly the success branch of `inserirPeca`, so the bulk fill is the
iterated single-item enqueue. -/
lemma preencherLoop_eq_insertN (randOf : Int → Int) : ∀ (k : ℕ) (fila : FilaPecas) (c : Int),
    0 ≤ fila.tamanho → fila.tamanho + k ≤ 5 →
    preencherLoop randOf k fila c =
      ((insertN randOf k fila c).1, (insertN randOf k fila c).2.1) := by
  intro k
  induction k with
  | zero => intro fila c _ _; rfl
  | succ k ih =>
    intro fila c h0 hk
    have hfull : ¬ fila.tamanho = CAPACIDADE_FILA := by
      rw [capacidade_eq]; omega
    rw [preencherLoop, insertN]
    simp only [inserirPeca, if_neg hfull]
    exact ih _ _ (by simp; omega) (by simp; push_cast at hk ⊢; omega)

/-- Draining a queue of size `k` with `k` calls to `jogarPeca` succeeds at
every step and returns precisely the pieces `exibirFila` would have
enumerated. -/
lemma playN_drain : ∀ (k : ℕ) (fila : FilaPecas),
    fila.tamanho = (k : Int) → 0 ≤ fila.frente → fila.frente < 5 →
    (playN k fila).2.1 = exibirLoop fila.elementos k fila.frente ∧
    (playN k fila).2.2 = List.replicate k 1 := by
  intro k
  induction k with
  | zero => intro fila _ _ _; exact ⟨rfl, rfl⟩
  | succ k ih =>
    intro fila ht h0 h5
    have hne : ¬ fila.tamanho = 0 := by rw [ht]; push_cast; omega
    rw [playN]
    simp only [jogarPeca, if_neg hne]
    have hrec := ih
      { fila with frente := (fila.frente + 1).tmod CAPACIDADE_FILA,
                  tamanho := fila.tamanho - 1 }
      (by simp [ht])
      (by simp [capacidade_eq]; exact tmod_five_nonneg (by omega))
      (by simp [capacidade_eq]; exact tmod_five_lt _)
    refine ⟨?_, ?_⟩
    · simp only [Option.toList_some, List.singleton_append]
      rw [hrec.1, exibirLoop]
    · rw [hrec.2, List.replicate_succ]

/-- Filling a clean queue (contiguous run of `j` pieces with consecutive
ids starting at slot 0): `n` further `inserirPeca` calls all succeed, keep
`frente = 0`, advance `tras` and `tamanho` in lockstep, store pieces with
consecutive ids, and report them in order. -/
lemma insertN_spec (randOf : Int → Int) (c0 : Int) : ∀ (n j : ℕ) (fila : FilaPecas),
    j + n ≤ 5 →
    fila.frente = 0 → fila.tras = (j : Int) - 1 → fila.tamanho = (j : Int) →
    (∀ i : Int, 0 ≤ i → i < (j : Int) →
      fila.elementos i = (gerarPeca randOf (c0 + i)).1) →
    (insertN randOf n fila (c0 + (j : Int))).1.frente = 0 ∧
    (insertN randOf n fila (c0 + (j : Int))).1.tras = (j : Int) + (n : Int) - 1 ∧
    (insertN randOf n fila (c0 + (j : Int))).1.tamanho = (j : Int) + (n : Int) ∧
    (∀ i : Int, 0 ≤ i → i < (j : Int) + (n : Int) →
      (insertN randOf n fila (c0 + (j : Int))).1.elementos i = (gerarPeca randOf (c0 + i)).1) ∧
    (insertN randOf n fila (c0 + (j : Int))).2.1 = c0 + (j : Int) + (n : Int) ∧
    (insertN randOf n fila (c0 + (j : Int))).2.2.1 =
      (List.range n).map (fun t : ℕ => (gerarPeca randOf (c0 + (j : Int) + (t : Int))).1) ∧
    (insertN randOf n fila (c0 + (j : Int))).2.2.2 = List.replicate n 1 := by
  intro n
  induction n with
  | zero =>
    intro j fila _ hf htr hta helem
    simp only [insertN, Nat.cast_zero]
    refine ⟨hf, by rw [htr]; ring, by rw [hta]; ring, ?_, by ring, rfl, rfl⟩
    intro i h0 hi
    exact helem i h0 (by omega)
  | succ n ih =>
    intro j fila hjn hf htr hta helem
    have hj0 : (0 : Int) ≤ (j : Int) := Int.natCast_nonneg j
    have hj5 : (j : Int) < 5 := by omega
    have hguard : ¬ fila.tamanho = CAPACIDADE_FILA := by
      rw [hta, capacidade_eq]; omega
    have htras' : (fila.tras + 1).tmod CAPACIDADE_FILA = (j : Int) := by
      rw [htr, capacidade_eq, show (j : Int) - 1 + 1 = (j : Int) by ring]
      exact tmod_five_eq_self hj0 hj5
    have hstep : inserirPeca randOf fila (c0 + (j : Int)) =
        { fila := { elementos := fun i =>
                      if i = (j : Int) then (gerarPeca randOf (c0 + (j : Int))).1
                      else fila.elementos i,
                    frente := 0,
                    tras := (j : Int),
                    tamanho := (j : Int) + 1 },
          cnt := c0 + (j : Int) + 1,
          ret := 1,
          inserted := some (gerarPeca randOf (c0 + (j : Int))).1 } := by
      have hguard' : ¬ (j : Int) = CAPACIDADE_FILA := by rw [capacidade_eq]; omega
      simp only [inserirPeca, htras', hf, hta, if_neg hguard']
      rfl
    have hc : c0 + ((j + 1 : ℕ) : Int) = c0 + (j : Int) + 1 := by push_cast; ring
    have ihspec := ih (j + 1)
      { elementos := fun i =>
          if i = (j : Int) then (gerarPeca randOf (c0 + (j : Int))).1
          else fila.elementos i,
        frente := 0,
        tras := (j : Int),
        tamanho := (j : Int) + 1 }
      (by omega) rfl (by push_cast; ring) (by push_cast; ring)
      (by
        intro i h0 hi
        dsimp only
        by_cases hij : i = (j : Int)
        · subst hij
          simp
        · rw [if_neg hij]
          exact helem i h0 (by omega))
    rw [hc] at ihspec
    obtain ⟨e1, e2, e3, e4, e5, e6, e7⟩ := ihspec
    simp only [insertN, hstep] at e1 e2 e3 e4 e5 e6 e7 ⊢
    refine ⟨e1, ?_, ?_, ?_, ?_, ?_, ?_⟩
    · rw [e2]; push_cast; ring
    · rw [e3]; push_cast; ring
    · intro i h0 hi
      exact e4 i h0 (by push_cast at hi ⊢; omega)
    · rw [e5]; push_cast; ring
    · simp only [Option.toList_some, List.singleton_append]
      rw [e6, List.range_succ_eq_map, List.map_cons, List.map_map]
      refine congrArg₂ _ (by norm_num) ?_
      refine List.map_congr_left ?_
      intro t _
      simp only [Function.comp]
      have harg : c0 + (j : Int) + 1 + (t : Int) = c0 + (j : Int) + ((Nat.succ t : ℕ) : Int) := by
        push_cast [Nat.succ_eq_add_one]; ring
      rw [harg]
    · rw [e7, List.replicate_succ]

lemma gerarPeca_snd (randOf : Int → Int) (c : Int) : (gerarPeca randOf c).2 = c + 1 := rfl

lemma gerarPeca_id (randOf : Int → Int) (c : Int) : (gerarPeca randOf c).1.id = c := rfl

/-- The occupancy bound `0 ≤ tamanho ≤ CAPACIDADE_FILA` is preserved by any
sequence of menu actions. -/
lemma runOps_tamanho (randOf : Int → Int) : ∀ (ops : List Acao) (fila : FilaPecas) (c : Int),
    0 ≤ fila.tamanho → fila.tamanho ≤ CAPACIDADE_FILA →
    0 ≤ (runOps randOf ops fila c).1.1.tamanho ∧
    (runOps randOf ops fila c).1.1.tamanho ≤ CAPACIDADE_FILA := by
  intro ops
  induction ops with
  | nil => intro fila c h0 h5; exact ⟨h0, h5⟩
  | cons op ops ih =>
    intro fila c h0 h5
    cases op with
    | jogar =>
      rw [runOps]
      by_cases h : fila.tamanho = 0
      · simp only [jogarPeca, if_pos h]
        exact ih _ _ h0 h5
      · simp only [jogarPeca, if_neg h]
        refine ih _ _ ?_ ?_
        · show (0 : Int) ≤ fila.tamanho - 1
          omega
        · show fila.tamanho - 1 ≤ CAPACIDADE_FILA
          rw [capacidade_eq] at h5 ⊢
          omega
    | inserir =>
      rw [runOps]
      by_cases h : fila.tamanho = CAPACIDADE_FILA
      · simp only [inserirPeca, if_pos h]
        exact ih _ _ h0 h5
      · simp only [inserirPeca, if_neg h]
        refine ih _ _ ?_ ?_
        · show (0 : Int) ≤ fila.tamanho + 1
          omega
        · show fila.tamanho + 1 ≤ CAPACIDADE_FILA
          rw [capacidade_eq] at h5 h ⊢
          omega

/-- Across any sequence of menu actions the id counter advances by exactly
one per generated piece, and the generated ids are consecutive starting at
the initial counter value. -/
lemma runOps_ids (randOf : Int → Int) : ∀ (ops : List Acao) (fila : FilaPecas) (c : Int),
    (runOps randOf ops fila c).1.2 = c + ((runOps randOf ops fila c).2.length : Int) ∧
    ((runOps randOf ops fila c).2).map Peca.id =
      (List.range (runOps randOf ops fila c).2.length).map (fun t : ℕ => c + (t : Int)) := by
  intro ops
  induction ops with
  | nil => intro fila c; exact ⟨by simp [runOps], by simp [runOps]⟩
  | cons op ops ih =>
    intro fila c
    cases op with
    | jogar =>
      rw [runOps]
      exact ih _ c
    | inserir =>
      rw [runOps]
      by_cases h : fila.tamanho = CAPACIDADE_FILA
      · simp only [inserirPeca, if_pos h, Option.toList_none, List.nil_append]
        exact ih _ c
      · simp only [inserirPeca, if_neg h, gerarPeca_snd, Option.toList_some,
          List.singleton_append]
        obtain ⟨ha, hb⟩ := ih
          { elementos := fun j =>
              if j = (fila.tras + 1).tmod CAPACIDADE_FILA then (gerarPeca randOf c).1
              else fila.elementos j,
            frente := fila.frente,
            tras := (fila.tras + 1).tmod CAPACIDADE_FILA,
            tamanho := fila.tamanho + 1 }
          (c + 1)
        refine ⟨?_, ?_⟩
        · rw [List.length_cons, ha]
          push_cast; ring
        · rw [List.map_cons, gerarPeca_id, hb, List.length_cons,
            List.range_succ_eq_map, List.map_cons, List.map_map]
          refine congrArg₂ _ (by norm_num) ?_
          refine List.map_congr_left ?_
          intro t _
          simp only [Function.comp]
          have harg : c + 1 + (t : Int) = c + ((Nat.succ t : ℕ) : Int) := by
            push_cast [Nat.succ_eq_add_one]; ring
          rw [harg]

/-! ### Concrete states and streams used by the witnesses -/

/-- A concrete full queue (`tamanho = 5`). -/
def filaCheiaExemplo : FilaPecas :=
  { elementos := fun _ => { tipo := 'I', id := 0 }, frente := 0, tras := 4, tamanho := 5 }

/-- A concrete empty queue whose indices are mid-cycle, as after draining. -/
def filaVaziaExemplo : FilaPecas :=
  { elementos := fun _ => { tipo := 'T', id := 9 }, frente := 3, tras := 2, tamanho := 0 }

/-- A concrete partially filled queue. -/
def filaExemplo : FilaPecas :=
  { elementos := fun _ => { tipo := 'O', id := -3 }, frente := 2, tras := 1, tamanho := 3 }

/-- A concrete stand-in for the `rand()` stream. -/
def randExemplo : Int → Int := fun k => 2 * k + 1

/-! ### Truncating modulus on the small literals that occur in the scenarios -/

lemma tmod_lit_0 : (0 : Int).tmod 5 = 0 := by decide

lemma tmod_lit_1 : (1 : Int).tmod 5 = 1 := by decide

lemma tmod_lit_2 : (2 : Int).tmod 5 = 2 := by decide

lemma tmod_lit_3 : (3 : Int).tmod 5 = 3 := by decide

lemma tmod_lit_4 : (4 : Int).tmod 5 = 4 := by decide

lemma tmod_lit_5 : (5 : Int).tmod 5 = 0 := by decide

/-! ### The claims -/

/-- C2: enqueue on a full queue fails atomically and idempotently: for any
queue state with `tamanho = CAPACIDADE_FILA`, `inserirPeca` returns status
0, inserts nothing, and leaves the entire queue state and the id counter
unchanged; `k` repeated attempts still leave the state untouched and
return `k` failure statuses. -/
theorem inserirPeca_fila_cheia_sem_efeito (randOf : Int → Int) (fila : FilaPecas)
    (c : Int) (k : ℕ) (h : fila.tamanho = CAPACIDADE_FILA) :
    inserirPeca randOf fila c = { fila := fila, cnt := c, ret := 0, inserted := none } ∧
    insertN randOf k fila c = (fila, c, [], List.replicate k 0) := by
  have hone : inserirPeca randOf fila c =
      { fila := fila, cnt := c, ret := 0, inserted := none } := by
    simp only [inserirPeca, if_pos h]
  refine ⟨hone, ?_⟩
  induction k with
  | zero => rfl
  | succ k ih =>
    rw [insertN, hone]
    dsimp only
    rw [ih]
    simp [List.replicate_succ]

/-- C2 witness: a concrete full queue on which a failed enqueue (and three
repeated attempts) leave everything unchanged. -/
theorem inserirPeca_fila_cheia_sem_efeito_testemunha :
    filaCheiaExemplo.tamanho = CAPACIDADE_FILA ∧
    (inserirPeca randExemplo filaCheiaExemplo 7 =
      { fila := filaCheiaExemplo, cnt := 7, ret := 0, inserted := none } ∧
    insertN randExemplo 3 filaCheiaExemplo 7 = (filaCheiaExemplo, 7, [], List.replicate 3 0)) :=
  ⟨rfl, inserirPeca_fila_cheia_sem_efeito randExemplo filaCheiaExemplo 7 3 rfl⟩

/-- C3: dequeue on an empty queue fails with the queue state unchanged
except that `tras` is (re-)set to the `-1` sentinel: it returns status 0,
removes nothing, keeps `elementos`, `frente` and `tamanho`, sets
`tras = -1`, and repeating the call yields the same result. -/
theorem jogarPeca_fila_vazia_reseta_tras (fila : FilaPecas) (h : fila.tamanho = 0) :
    jogarPeca fila = { fila := { fila with tras := -1 }, ret := 0, removida := none } ∧
    (jogarPeca fila).fila.elementos = fila.elementos ∧
    (jogarPeca fila).fila.frente = fila.frente ∧
    (jogarPeca fila).fila.tamanho = fila.tamanho ∧
    (jogarPeca fila).fila.tras = -1 ∧
    jogarPeca (jogarPeca fila).fila = jogarPeca fila := by
  have hone : jogarPeca fila =
      { fila := { fila with tras := -1 }, ret := 0, removida := none } := by
    simp only [jogarPeca, if_pos h]
  refine ⟨hone, by rw [hone], by rw [hone], by rw [hone], by rw [hone], ?_⟩
  rw [hone]
  simp only [jogarPeca, if_pos (show ({ fila with tras := -1 } : FilaPecas).tamanho = 0 from h)]

/-- C3 witness: a concrete empty queue with mid-cycle indices on which the
failed dequeue only resets `tras` and is idempotent. -/
theorem jogarPeca_fila_vazia_reseta_tras_testemunha :
    filaVaziaExemplo.tamanho = 0 ∧
    (jogarPeca filaVaziaExemplo =
      { fila := { filaVaziaExemplo with tras := -1 }, ret := 0, removida := none } ∧
    (jogarPeca filaVaziaExemplo).fila.elementos = filaVaziaExemplo.elementos ∧
    (jogarPeca filaVaziaExemplo).fila.frente = filaVaziaExemplo.frente ∧
    (jogarPeca filaVaziaExemplo).fila.tamanho = filaVaziaExemplo.tamanho ∧
    (jogarPeca filaVaziaExemplo).fila.tras = -1 ∧
    jogarPeca (jogarPeca filaVaziaExemplo).fila = jogarPeca filaVaziaExemplo) :=
  ⟨rfl, jogarPeca_fila_vazia_reseta_tras filaVaziaExemplo rfl⟩

/-- C9: a failed enqueue consumes no id: on a full queue `inserirPeca`
returns without calling the piece generator, the id counter is unchanged,
and the next generation yields the same id as if the failed attempt had
never happened. -/
theorem insercao_falha_nao_consome_id (randOf : Int → Int) (fila : FilaPecas)
    (c : Int) (h : fila.tamanho = CAPACIDADE_FILA) :
    (inserirPeca randOf fila c).cnt = c ∧
    (inserirPeca randOf fila c).inserted = none ∧
    (gerarPeca randOf (inserirPeca randOf fila c).cnt).1.id = (gerarPeca randOf c).1.id := by
  have hone : inserirPeca randOf fila c =
      { fila := fila, cnt := c, ret := 0, inserted := none } := by
    simp only [inserirPeca, if_pos h]
  exact ⟨by rw [hone], by rw [hone], by rw [hone]⟩

/-- C9 witness: on the concrete full queue, a failed enqueue leaves the
counter at 42 and the next generated id is still 42. -/
theorem insercao_falha_nao_consome_id_testemunha :
    filaCheiaExemplo.tamanho = CAPACIDADE_FILA ∧
    ((inserirPeca randExemplo filaCheiaExemplo 42).cnt = 42 ∧
    (inserirPeca randExemplo filaCheiaExemplo 42).inserted = none ∧
    (gerarPeca randExemplo (inserirPeca randExemplo filaCheiaExemplo 42).cnt).1.id =
      (gerarPeca randExemplo 42).1.id) :=
  ⟨rfl, insercao_falha_nao_consome_id randExemplo filaCheiaExemplo 42 rfl⟩

/-- C7: clamping of an oversized initial fill: for every `n` above the
capacity, `preencherFilaInicial` on a freshly initialized (empty) queue
ends with `tamanho = CAPACIDADE_FILA` (no error is reported: the function
has no failure path). -/
theorem preencher_clampa_tamanho (randOf : Int → Int) (q0 : FilaPecas) (c n : Int)
    (h : n > CAPACIDADE_FILA) :
    (preencherFilaInicial randOf (inicializarFila q0) c n).1.tamanho = CAPACIDADE_FILA := by
  show (preencherLoop randOf (if n > CAPACIDADE_FILA then CAPACIDADE_FILA else n).toNat
    (inicializarFila q0) c).1.tamanho = CAPACIDADE_FILA
  rw [if_pos h, (preencherLoop_growth randOf _ _ _).1]
  norm_num [inicializarFila, capacidade_eq]

/-- C7 witness: `preencherFilaInicial` with `n = 10` on a freshly
initialized capacity-5 queue ends with `tamanho = 5`. -/
theorem preencher_clampa_tamanho_testemunha :
    (10 : Int) > CAPACIDADE_FILA ∧
    (preencherFilaInicial randExemplo (inicializarFila filaExemplo) 0 10).1.tamanho =
      CAPACIDADE_FILA :=
  ⟨by decide, preencher_clampa_tamanho randExemplo filaExemplo 0 10 (by decide)⟩

/-- C10: bulk fill ignores current occupancy: from any queue state with
any current `tamanho`, `preencherFilaInicial` performs exactly
`min n CAPACIDADE_FILA` insertions unconditionally (the counter advances
by that amount), so the resulting `tamanho` is the old one plus
`min n CAPACIDADE_FILA` and exceeds the capacity whenever that sum does. -/
theorem preencher_ignora_ocupacao (randOf : Int → Int) (fila : FilaPecas) (c n : Int)
    (h : 0 ≤ n) :
    (preencherFilaInicial randOf fila c n).1.tamanho =
      fila.tamanho + min n CAPACIDADE_FILA ∧
    (preencherFilaInicial randOf fila c n).2 = c + min n CAPACIDADE_FILA ∧
    (CAPACIDADE_FILA < fila.tamanho + min n CAPACIDADE_FILA →
      CAPACIDADE_FILA < (preencherFilaInicial randOf fila c n).1.tamanho) := by
  have hiter : (((if n > CAPACIDADE_FILA then CAPACIDADE_FILA else n).toNat : ℕ) : Int) =
      min n CAPACIDADE_FILA := by
    rw [capacidade_eq] at *
    split <;> omega
  have h1 : (preencherFilaInicial randOf fila c n).1.tamanho =
      fila.tamanho + min n CAPACIDADE_FILA := by
    show (preencherLoop randOf (if n > CAPACIDADE_FILA then CAPACIDADE_FILA else n).toNat
      fila c).1.tamanho = fila.tamanho + min n CAPACIDADE_FILA
    rw [(preencherLoop_growth randOf _ _ _).1, hiter]
  have h2 : (preencherFilaInicial randOf fila c n).2 = c + min n CAPACIDADE_FILA := by
    show (preencherLoop randOf (if n > CAPACIDADE_FILA then CAPACIDADE_FILA else n).toNat
      fila c).2 = c + min n CAPACIDADE_FILA
    rw [(preencherLoop_growth randOf _ _ _).2, hiter]
  exact ⟨h1, h2, fun hlt => by rw [h1]; exact hlt⟩

/-- C10 witness: filling with `n = 3` on a queue that already holds 5
pieces drives `tamanho` to 8, beyond the capacity. -/
theorem preencher_ignora_ocupacao_testemunha :
    (0 : Int) ≤ 3 ∧
    ((preencherFilaInicial randExemplo filaCheiaExemplo 0 3).1.tamanho =
      filaCheiaExemplo.tamanho + min 3 CAPACIDADE_FILA ∧
    (preencherFilaInicial randExemplo filaCheiaExemplo 0 3).2 = 0 + min 3 CAPACIDADE_FILA ∧
    (CAPACIDADE_FILA < filaCheiaExemplo.tamanho + min 3 CAPACIDADE_FILA →
      CAPACIDADE_FILA < (preencherFilaInicial randExemplo filaCheiaExemplo 0 3).1.tamanho)) :=
  ⟨by decide, preencher_ignora_ocupacao randExemplo filaCheiaExemplo 0 3 (by decide)⟩

/-- C8: bulk fill refines repeated enqueue: for every `n ≥ 0`, running
`preencherFilaInicial` on a freshly initialized (empty) queue produces the
same queue state and the same final id counter (hence consumes the same
number of generated pieces) as `min n CAPACIDADE_FILA` consecutive calls
of the single-item enqueue `inserirPeca`. -/
theorem preencher_refina_inserir (randOf : Int → Int) (q0 : FilaPecas) (c n : Int)
    (h : 0 ≤ n) :
    preencherFilaInicial randOf (inicializarFila q0) c n =
      ((insertN randOf (min n CAPACIDADE_FILA).toNat (inicializarFila q0) c).1,
       (insertN randOf (min n CAPACIDADE_FILA).toNat (inicializarFila q0) c).2.1) := by
  have hk : (if n > CAPACIDADE_FILA then CAPACIDADE_FILA else n).toNat =
      (min n CAPACIDADE_FILA).toNat := by
    rw [capacidade_eq] at *
    split <;> omega
  show preencherLoop randOf (if n > CAPACIDADE_FILA then CAPACIDADE_FILA else n).toNat
    (inicializarFila q0) c = _
  rw [hk]
  refine preencherLoop_eq_insertN randOf _ _ _ ?_ ?_
  · show (0 : Int) ≤ 0
    omega
  · show (0 : Int) + ((min n CAPACIDADE_FILA).toNat : Int) ≤ 5
    rw [capacidade_eq] at *
    omega

/-- C8 witness: the bulk fill with `n = 7` from an initialized queue is
state-for-state the same as 5 consecutive single enqueues. -/
theorem preencher_refina_inserir_testemunha :
    (0 : Int) ≤ 7 ∧
    preencherFilaInicial randExemplo (inicializarFila filaExemplo) 2 7 =
      ((insertN randExemplo (min 7 CAPACIDADE_FILA).toNat (inicializarFila filaExemplo) 2).1,
       (insertN randExemplo (min 7 CAPACIDADE_FILA).toNat (inicializarFila filaExemplo) 2).2.1) :=
  ⟨by decide, preencher_refina_inserir randExemplo filaExemplo 2 7 (by decide)⟩

/-- C4: occupancy bound invariant: starting from an initialized queue,
after any sequence of `inserirPeca`/`jogarPeca` calls the count `tamanho`
satisfies `0 ≤ tamanho ≤ CAPACIDADE_FILA`; since every prefix of the
sequence is itself such a sequence, the bound holds at every intermediate
state as well. -/
theorem tamanho_sempre_limitado (randOf : Int → Int) (q0 : FilaPecas) (c : Int)
    (ops : List Acao) :
    0 ≤ (runOps randOf ops (inicializarFila q0) c).1.1.tamanho ∧
    (runOps randOf ops (inicializarFila q0) c).1.1.tamanho ≤ CAPACIDADE_FILA :=
  runOps_tamanho randOf ops (inicializarFila q0) c
    (by norm_num [inicializarFila]) (by norm_num [inicializarFila, capacidade_eq])

/-- C5: id uniqueness and monotonicity: `gerarPeca` assigns the current
counter as the id and advances the counter by exactly 1; consequently,
starting from the counter's initial value 0 and across any interleaving
of inserts and dequeues, the generated ids are `0, 1, 2, …` in order with
no repeats and no gaps. -/
theorem ids_unicos_monotonicos (randOf : Int → Int) (c : Int) (q0 : FilaPecas)
    (ops : List Acao) :
    (gerarPeca randOf c).2 = c + 1 ∧
    (gerarPeca randOf c).1.id = c ∧
    ((runOps randOf ops (inicializarFila q0) 0).2).map Peca.id =
      (List.range (runOps randOf ops (inicializarFila q0) 0).2.length).map
        (fun t : ℕ => (t : Int)) := by
  refine ⟨rfl, rfl, ?_⟩
  have hids := (runOps_ids randOf ops (inicializarFila q0) 0).2
  simpa using hids

/-- C1: FIFO order: starting from an initialized (empty) queue with the id
counter at `c`, any `n ≤ 5` consecutive `inserirPeca` calls all succeed
and assign the ids `c, c+1, …, c+n-1` in order, and the following `n`
`jogarPeca` calls all succeed and return exactly those ids in the same
order. -/
theorem fifo_ids_em_ordem (q0 : FilaPecas) (randOf : Int → Int) (c : Int) (n : ℕ)
    (hn : n ≤ 5) :
    (insertN randOf n (inicializarFila q0) c).2.2.2 = List.replicate n 1 ∧
    ((insertN randOf n (inicializarFila q0) c).2.2.1).map Peca.id =
      (List.range n).map (fun t : ℕ => c + (t : Int)) ∧
    (playN n (insertN randOf n (inicializarFila q0) c).1).2.2 = List.replicate n 1 ∧
    ((playN n (insertN randOf n (inicializarFila q0) c).1).2.1).map Peca.id =
      ((insertN randOf n (inicializarFila q0) c).2.2.1).map Peca.id := by
  have hc0 : c + ((0 : ℕ) : Int) = c := by norm_num
  have spec := insertN_spec randOf c n 0 (inicializarFila q0) (by omega) rfl
    (by norm_num [inicializarFila]) (by norm_num [inicializarFila])
    (by intro i h0 hi; push_cast at hi; omega)
  rw [hc0] at spec
  obtain ⟨s1, s2, s3, s4, s5, s6, s7⟩ := spec
  have hids : ((insertN randOf n (inicializarFila q0) c).2.2.1).map Peca.id =
      (List.range n).map (fun t : ℕ => c + (t : Int)) := by
    rw [s6, List.map_map]
    refine List.map_congr_left ?_
    intro t _
    simp [Function.comp, gerarPeca_id]
  have drain := playN_drain n (insertN randOf n (inicializarFila q0) c).1
    (by rw [s3]; push_cast; ring) (by rw [s1]) (by rw [s1]; norm_num)
  have h4 : ((playN n (insertN randOf n (inicializarFila q0) c).1).2.1).map Peca.id =
      (List.range n).map (fun t : ℕ => c + (t : Int)) := by
    rw [drain.1, s1, exibirLoop_eq_map _ n 0 (by norm_num) (by norm_num), List.map_map]
    refine List.map_congr_left ?_
    intro t ht
    rw [List.mem_range] at ht
    have ht5 : ((t : ℕ) : Int) < 5 := by omega
    simp only [Function.comp, zero_add]
    rw [tmod_five_eq_self (Int.natCast_nonneg t) ht5]
    rw [s4 ((t : ℕ) : Int) (Int.natCast_nonneg t) (by push_cast; omega)]
    exact gerarPeca_id randOf _
  exact ⟨s7, hids, drain.2, by rw [h4, hids]⟩

/-- C1 witness: five enqueues from counter 10 on an initialized queue all
succeed with ids 10..14, and five dequeues return them in the same order. -/
theorem fifo_ids_em_ordem_testemunha :
    (5 : ℕ) ≤ 5 ∧
    ((insertN randExemplo 5 (inicializarFila filaExemplo) 10).2.2.2 = List.replicate 5 1 ∧
    ((insertN randExemplo 5 (inicializarFila filaExemplo) 10).2.2.1).map Peca.id =
      (List.range 5).map (fun t : ℕ => 10 + (t : Int)) ∧
    (playN 5 (insertN randExemplo 5 (inicializarFila filaExemplo) 10).1).2.2 =
      List.replicate 5 1 ∧
    ((playN 5 (insertN randExemplo 5 (inicializarFila filaExemplo) 10).1).2.1).map Peca.id =
      ((insertN randExemplo 5 (inicializarFila filaExemplo) 10).2.2.1).map Peca.id) :=
  ⟨by decide, fifo_ids_em_ordem filaExemplo randExemplo 10 5 (by decide)⟩

/-- C6: snapshot correctness: `exibirFila` (a pure reader: the source takes
the queue by `const` pointer and writes nothing) enumerates exactly
`tamanho` occupied slots starting at `frente`, wrapping indices modulo the
capacity, oldest first; in particular after a full initial fill of the
capacity-5 queue it lists ids `0..4` in order, and after one dequeue
followed by one enqueue it lists ids `1,2,3,4,5` in order. -/
theorem exibirFila_enumeracao_correta (fila q0 : FilaPecas) (randOf : Int → Int)
    (h0 : 0 ≤ fila.frente) (h5 : fila.frente < 5) :
    (exibirFila fila).length = fila.tamanho.toNat ∧
    exibirFila fila = (List.range fila.tamanho.toNat).map
      (fun t : ℕ => fila.elementos ((fila.frente + (t : Int)).tmod CAPACIDADE_FILA)) ∧
    ((exibirFila (preencherFilaInicial randOf (inicializarFila q0) 0 5).1).map Peca.id =
      [0, 1, 2, 3, 4]) ∧
    ((exibirFila (inserirPeca randOf
        (jogarPeca (preencherFilaInicial randOf (inicializarFila q0) 0 5).1).fila
        (preencherFilaInicial randOf (inicializarFila q0) 0 5).2).fila).map Peca.id =
      [1, 2, 3, 4, 5]) := by
  refine ⟨?_, ?_, ?_, ?_⟩
  · by_cases h : fila.tamanho = 0
    · simp [exibirFila, h]
    · simp [exibirFila, h, exibirLoop_length]
  · by_cases h : fila.tamanho = 0
    · simp [exibirFila, h]
    · rw [exibirFila, if_neg h, capacidade_eq,
        exibirLoop_eq_map fila.elementos fila.tamanho.toNat fila.frente h0 h5]
  · norm_num [preencherFilaInicial, preencherLoop, exibirFila, exibirLoop,
      inicializarFila, gerarPeca, capacidade_eq, CAPACIDADE_FILA,
      tmod_lit_0, tmod_lit_1, tmod_lit_2, tmod_lit_3, tmod_lit_4, tmod_lit_5]
  · norm_num [preencherFilaInicial, preencherLoop, exibirFila, exibirLoop,
      inicializarFila, gerarPeca, inserirPeca, jogarPeca, capacidade_eq, CAPACIDADE_FILA,
      tmod_lit_0, tmod_lit_1, tmod_lit_2, tmod_lit_3, tmod_lit_4, tmod_lit_5]

/-- C6 witness: the enumeration facts instantiated on the concrete full
queue and the two concrete startup scenarios. -/
theorem exibirFila_enumeracao_correta_testemunha :
    (0 : Int) ≤ filaCheiaExemplo.frente ∧ filaCheiaExemplo.frente < 5 ∧
    ((exibirFila filaCheiaExemplo).length = filaCheiaExemplo.tamanho.toNat ∧
    exibirFila filaCheiaExemplo = (List.range filaCheiaExemplo.tamanho.toNat).map
      (fun t : ℕ =>
        filaCheiaExemplo.elementos
          ((filaCheiaExemplo.frente + (t : Int)).tmod CAPACIDADE_FILA)) ∧
    ((exibirFila (preencherFilaInicial randExemplo (inicializarFila filaExemplo) 0 5).1).map
        Peca.id = [0, 1, 2, 3, 4]) ∧
    ((exibirFila (inserirPeca randExemplo
        (jogarPeca (preencherFilaInicial randExemplo (inicializarFila filaExemplo) 0 5).1).fila
        (preencherFilaInicial randExemplo (inicializarFila filaExemplo) 0 5).2).fila).map
        Peca.id = [1, 2, 3, 4, 5])) :=
  ⟨by decide, by decide,
   exibirFila_enumeracao_correta filaCheiaExemplo filaExemplo randExemplo
     (by decide) (by decide)⟩

end Tetris
